import Mathlib

set_option maxRecDepth 10000

/-!
Verification of the AD9523 clock-generator driver
(`src/drivers/iio/frequency/ad9523.c`) against its natural-language
specification.  The driver's algorithmic core is embedded shallowly:

* the PLL2 frequency-plan solver `ad9523_calc_dividers`,
* the per-channel clock-source router `ad9523_set_clock_provider`,
* the channel phase write path of `ad9523_write_raw`,
* the register-transaction protocols `ad9523_sync` and
  `ad9523_store_eeprom`, and the read/write integrity check of
  `ad9523_setup`, all parametrised by an abstract register transport.

C `unsigned` arithmetic is modelled with `Nat` (values stay far below
2^32 on the ranges of interest; theorems carry explicit bounds where the
32-bit range matters), signed C `int` arithmetic with `Int` using
truncating division/remainder (`Int.tdiv` / `Int.tmod`), and fallible C
paths (negative `errno` returns) with `Option` or an explicit `Int`
result code.
-/

/-! ### Register-map constants (from the `#define` table of the source) -/

def AD9523_R1B : Nat := 1 <<< 16
def AD9523_R2B : Nat := 2 <<< 16
def AD9523_R3B : Nat := 3 <<< 16

def AD9523_EEPROM_CUSTOMER_VERSION_ID : Nat := AD9523_R2B ||| 0x6
def AD9523_STATUS_SIGNALS : Nat := AD9523_R3B ||| 0x232
def AD9523_IO_UPDATE : Nat := AD9523_R1B ||| 0x234
def AD9523_EEPROM_DATA_XFER_STATUS : Nat := AD9523_R1B ||| 0xB00
def AD9523_EEPROM_ERROR_READBACK : Nat := AD9523_R1B ||| 0xB01
def AD9523_EEPROM_CTRL1 : Nat := AD9523_R1B ||| 0xB02
def AD9523_EEPROM_CTRL2 : Nat := AD9523_R1B ||| 0xB03

def AD9523_STATUS_SIGNALS_SYNC_MAN_CTRL : Nat := 1 <<< 16
def AD9523_IO_UPDATE_EN : Nat := 1
def AD9523_EEPROM_DATA_XFER_IN_PROGRESS : Nat := 1
def AD9523_EEPROM_ERROR_READBACK_FAIL : Nat := 1
def AD9523_EEPROM_CTRL1_EEPROM_WRITE_PROT_DIS : Nat := 1
def AD9523_EEPROM_CTRL2_REG2EEPROM : Nat := 1

def AD9523_VCO_FREQ_MIN : Nat := 2940000
def AD9523_VCO_FREQ_MAX : Nat := 3100000

/-- Linux `-EIO` error value; the driver returns it on verify failures. -/
def negEIOcode : Int := -5

/-- `|a - b|` on naturals; models C subtraction of two non-negative
quantities followed by `abs` (no overflow occurs at the magnitudes the
driver computes with). -/
def absDiff (a b : Nat) : Nat := max a b - min a b

/-! ### PLL2 plan solver (`ad9523_calc_dividers` and helpers) -/

/-- `ad9523_pll2_valid_div` from the source: dividers below 16 and the
values 18, 19, 23, 27 are illegal. -/
def ad9523_pll2_valid_div (div : Nat) : Bool :=
  if div < 16 then false
  else if div = 18 then false
  else if div = 19 then false
  else if div = 23 then false
  else if div = 27 then false
  else true

/-- `AD9523_VCO_FREQ_MIN <= vco_freq && AD9523_VCO_FREQ_MAX >= vco_freq`. -/
def vcoRangeB (f : Nat) : Bool :=
  decide (AD9523_VCO_FREQ_MIN ≤ f ∧ f ≤ AD9523_VCO_FREQ_MAX)

/-- The `for (m = 3; m <= 5; m++)` search of `ad9523_calc_dividers`:
first multiplier in `{3,4,5}` putting `m_freq * m` into the VCO range,
`6` when the loop exhausts. -/
def mSearch (m_freq : Nat) : Nat :=
  if vcoRangeB (m_freq * 3) then 3
  else if vcoRangeB (m_freq * 4) then 4
  else if vcoRangeB (m_freq * 5) then 5
  else 6

/-- Cross-multiplied error of the candidate fraction `n/d` against the
target ratio `num/den`: the real error is `|num/den - n/d| =
|num*d - den*n| / (den*d)`, and `ratErr` is its numerator. -/
def ratErr (num den n d : Nat) : Nat := absDiff (num * d) (den * n)

/-- Candidate `c₁` approximates `num/den` strictly better than `c₂`:
smaller absolute error (errors compared as fractions `ratErr/d` with the
common factor `den` cancelled), ties broken by smaller denominator. -/
def ratBetter (num den : Nat) (c₁ c₂ : Nat × Nat) : Prop :=
  ratErr num den c₁.1 c₁.2 * c₂.2 < ratErr num den c₂.1 c₂.2 * c₁.2 ∨
  (ratErr num den c₁.1 c₁.2 * c₂.2 = ratErr num den c₂.1 c₂.2 * c₁.2 ∧ c₁.2 < c₂.2)

instance (num den : Nat) (c₁ c₂ : Nat × Nat) : Decidable (ratBetter num den c₁ c₂) := by
  unfold ratBetter; infer_instance

/-- The candidate fractions `(n, d)` with numerator `n`:
`1 ≤ d ≤ maxD`. -/
def ratRows (maxD n : Nat) : List (Nat × Nat) :=
  (List.range maxD).map fun d => (n, d + 1)

/-- All fractions `(n, d)` with `n ≤ maxN`, `1 ≤ d ≤ maxD`. -/
def ratCandidates (maxN maxD : Nat) : List (Nat × Nat) :=
  (List.range (maxN + 1)).flatMap (ratRows maxD)

/-- Argmin scan: walk the candidate list keeping the best fraction seen
so far, replacing it only when a candidate is strictly better.  (The
accumulator is matched apart so concrete evaluations run in constant
stack.) -/
def ratBest (num den : Nat) : List (Nat × Nat) → Nat × Nat → Nat × Nat
  | [], best => best
  | c :: cs, (bn, bd) =>
    ratBest num den cs (if ratBetter num den c (bn, bd) then c else (bn, bd))

/-- The same argmin scan arranged row by row (one row per numerator),
so that concrete evaluations recurse only as deep as one row plus the
number of rows.  `ratBestRows_cands` proves it equal to the flat scan
over `ratCandidates`. -/
def ratBestRows (num den maxD : Nat) : List Nat → Nat × Nat → Nat × Nat
  | [], best => best
  | n :: ns, (bn, bd) =>
    ratBestRows num den maxD ns (ratBest num den (ratRows maxD n) (bn, bd))

/-- Modelled from the spec: the driver calls the kernel library routine
`rational_best_approximation` (`lib/math/rational.c`), which is not part
of the sources under verification.  Spec 4.1: it "returns the best
rational approximation of `numerator/denominator` with `n ≤ maxNum`,
`d ≤ maxDen`, minimizing absolute error; ties broken by smallest
denominator.  Must handle `denominator == 0` by returning `(maxNum, 1)`".
Realised as an exhaustive argmin over all candidate fractions. -/
def rational_best_approximation (num den maxN maxD : Nat) : Nat × Nat :=
  if den = 0 then (maxN, 1)
  else ratBestRows num den maxD (List.range (maxN + 1)) (0, 1)

/-- One-step body iteration, fuel-indexed, of the
`while (fpfd > 259000 || !ad9523_pll2_valid_div(n2[0]))` loop of
`ad9523_calc_dividers`: halve the comparison frequency and double both
dividers until the comparison frequency is legal and the N divider is a
valid value.  When the fuel runs out with the condition still true the
current state is returned; `calcLoop` below supplies a fuel that is
proved sufficient whenever `1 ≤ n` (`calcLoopAux_exit`), which covers
every state the solver can reach.  (Entered with `n = 0` the C loop
would never terminate, since doubling keeps `n = 0`, which is never a
valid divider.) -/
def calcLoopAux : Nat → Nat → Nat → Nat → Nat × Nat × Nat
  | 0, fpfd, n, r => (fpfd, n, r)
  | fuel + 1, fpfd, n, r =>
    if 259000 < fpfd ∨ ad9523_pll2_valid_div n = false then
      calcLoopAux fuel (fpfd / 2) (n * 2) (r * 2)
    else (fpfd, n, r)

/-- The comparison-frequency legality loop, run with sufficient fuel:
`fpfd` needs at most `fpfd / 131072 + 7` halvings to drop to `259000`
or below and `n ≥ 1` needs at most `27` doublings to reach a valid
divider value (everything from `28` up is valid), so `fpfd / 131072 +
33` iterations always exhaust the loop condition (`calcLoop_exit`). -/
def calcLoop (fpfd n r : Nat) : Nat × Nat × Nat :=
  calcLoopAux (fpfd / 131072 + 33) fpfd n r

/-- Fuel-indexed version of the same `while` loop, with `none` when the
fuel runs out before the loop condition turns false.  Termination of the
C loop at a state is `∃ fuel, calcLoopFuel fuel … = some _`. -/
def calcLoopFuel : Nat → Nat → Nat → Nat → Option (Nat × Nat × Nat)
  | 0, _, _, _ => none
  | fuel + 1, fpfd, n, r =>
    if 259000 < fpfd ∨ ad9523_pll2_valid_div n = false then
      calcLoopFuel fuel (fpfd / 2) (n * 2) (r * 2)
    else some (fpfd, n, r)

/-- The rational-approximation step of `ad9523_calc_dividers` (lines
839-854): approximate `vco_freq / vcxo_freq`; if that does not reproduce
`vco_freq` exactly, also approximate against the doubled oscillator and
keep whichever candidate has the smaller comparison-frequency error,
raising the doubler flag if the doubled candidate wins.
Returns `(doubler, n, r)`. -/
def calcNR (vco_freq vcxo_freq : Nat) : Bool × Nat × Nat :=
  let p0 := rational_best_approximation vco_freq vcxo_freq 255 31
  if vco_freq ≠ vcxo_freq * p0.1 / p0.2 then
    let p1 := rational_best_approximation vco_freq (vcxo_freq * 2) 255 31
    if absDiff (vco_freq / p0.1) (vcxo_freq / p0.2) >
       absDiff (vco_freq / p1.1 / 2) (vcxo_freq / p1.2) then
      (true, p1)
    else (false, p0)
  else (false, p0)

/-- The divider plan written into `pdata` by `ad9523_calc_dividers`. -/
structure Pll2Plan where
  pll2_r2_div : Nat
  pll2_vco_div_m1 : Nat
  pll2_vco_div_m2 : Nat
  pll2_ndiv_a_cnt : Nat
  pll2_ndiv_b_cnt : Nat
  pll2_freq_doubler_en : Bool
deriving DecidableEq, Repr

/-- `ad9523_calc_dividers(vcxo_freq, m1_freq, m2_freq, pdata)`:
`none` models the `-EINVAL` returns, `some` the plan stored in `pdata`.
Frequencies are the raw `unsigned int` Hz arguments; the first step
truncates them to kHz exactly as the source does. -/
def ad9523_calc_dividers (vcxo_freq m1_freq m2_freq : Nat) : Option Pll2Plan :=
  let m1k := m1_freq / 1000
  let m2k := m2_freq / 1000
  let vcxok := vcxo_freq / 1000
  let m_freq := if m1k ≠ 0 then m1k else m2k
  let m := mSearch m_freq
  if m = 6 then none
  else
    let vco_freq := m_freq * m
    let step2 : Option (Nat × Nat) :=
      if m1k ≠ 0 then
        if m2k ≠ 0 then
          let m2 := vco_freq / m2k
          if m2 < 3 ∨ 5 < m2 ∨ 1 < vco_freq % m2k then none else some (m, m2)
        else some (m, 3)
      else some (3, m)
    match step2 with
    | none => none
    | some (m1, m2) =>
      let dnr := calcNR vco_freq vcxok
      let fpfd := vcxok * (if dnr.1 then 2 else 1) / dnr.2.2
      let fin := calcLoop fpfd dnr.2.1 dnr.2.2
      some { pll2_r2_div := fin.2.2
             pll2_vco_div_m1 := m1
             pll2_vco_div_m2 := m2
             pll2_ndiv_a_cnt := fin.2.1 % 4
             pll2_ndiv_b_cnt := fin.2.1 / 4
             pll2_freq_doubler_en := dnr.1 }

/-- The VCO frequency a plan programs, recomputed as `ad9523_setup` does
(`AD9523_PLL2_FB_NDIV(a, b) = 4*b + a`), in kHz: the spec's
`oscillatorHz * (2 if doublerEnabled else 1) * (4*feedbackB + feedbackA)
/ referenceR2` with the oscillator already truncated to kHz. -/
def recomputedVco (p : Pll2Plan) (vcxo_khz : Nat) : Nat :=
  vcxo_khz * (if p.pll2_freq_doubler_en then 2 else 1) *
    (4 * p.pll2_ndiv_b_cnt + p.pll2_ndiv_a_cnt) / p.pll2_r2_div

/-! ### Clock-source router (`ad9523_set_clock_provider`) -/

/-- The routing decision of `ad9523_set_clock_provider`:
`some b` means the channel's `use_alt_clk_src` flag is set to `b`
(`true` selects the alternate source: VCXO for channels 0-3, the second
VCO tap for channels 4-9), `none` means the default `Ch 10..14: No
action required, return success` branch.  Channel-4-9 arithmetic is the
source's: `tmp1 = vco1/freq; tmp2 = vco2/freq; tmp1 *= freq; tmp2 *=
freq; use_alt = abs(tmp1 - freq) > abs(tmp2 - freq)` (the comparison is
against `freq`, the requested rate itself). -/
def ad9523_set_clock_provider (ch vcxo_out vco1_out vco2_out freq : Nat) :
    Option Bool :=
  if ch ≤ 3 then some (decide (freq = vcxo_out))
  else if ch ≤ 9 then
    let tmp1 := vco1_out / freq * freq
    let tmp2 := vco2_out / freq * freq
    some (decide (absDiff tmp2 freq < absDiff tmp1 freq))
  else none

/-- The residual the spec's routing policy compares: re-multiply the
rounded (`DIV_ROUND_CLOSEST`) quotient and take the distance to the
source frequency ("pick whichever yields smaller absolute residual
after re-multiplying the rounded quotient").  This is the spec-side
definition, for comparison with `ad9523_set_clock_provider`. -/
def specRoundedResidual (src freq : Nat) : Nat :=
  absDiff ((src + freq / 2) / freq * freq) src

/-! ### Channel phase write path (`ad9523_write_raw`, `IIO_CHAN_INFO_PHASE`) -/

/-- `AD9523_CLK_DIST_DIV_REV`: output divider currently programmed in a
channel's clock-distribution register. -/
def AD9523_CLK_DIST_DIV_REV (reg : Nat) : Nat := ((reg >>> 8) &&& 0x3FF) + 1

/-- `AD9523_CLK_DIST_DIV_PHASE_REV`: the 6-bit phase code stored in a
channel's clock-distribution register. -/
def AD9523_CLK_DIST_DIV_PHASE_REV (reg : Nat) : Nat := (reg >>> 18) &&& 0x3F

/-- The `IIO_CHAN_INFO_PHASE` branch of `ad9523_write_raw`: starting
from the current register value `reg`, compute
`code = val * 1000000 + val2 % 1000000`,
`tmp = (code * AD9523_CLK_DIST_DIV_REV(ret)) / 3141592` (C `int`
division and remainder truncate toward zero, hence `Int.tdiv` /
`Int.tmod`), clamp to `[0, 63]` and splice the result into the phase
field: `reg &= ~AD9523_CLK_DIST_DIV_PHASE(~0); reg |=
AD9523_CLK_DIST_DIV_PHASE(tmp)`.  `~(0x3F << 18)` as a 32-bit unsigned
value is `0xFF03FFFF`.  Returns the register value written back. -/
def ad9523_write_raw_phase (reg : Nat) (val val2 : Int) : Nat :=
  let code : Int := val * 1000000 + Int.tmod val2 1000000
  let tmp : Int := Int.tdiv (code * (AD9523_CLK_DIST_DIV_REV reg : Nat)) 3141592
  let tmp : Int := min (max tmp 0) 63
  (reg &&& 0xFF03FFFF) ||| ((tmp.toNat &&& 0x3F) <<< 18)

/-- The phase code the spec prescribes:
`round(phaseRadians * divider / (2π))` clamped to `[0, 63]`, with the
phase supplied in integer+micro parts and `2π` at the same `10^-6`
precision the driver uses for `π` (`3141592`), i.e. `6283185`; rounding
is to the nearest integer (`DIV_ROUND_CLOSEST`).  Spec-side definition,
for comparison with `ad9523_write_raw_phase`. -/
def specPhaseCode (val val2 div : Nat) : Nat :=
  min 63 (((val * 1000000 + val2 % 1000000) * div + 6283185 / 2) / 6283185)

/-! ### Register-transaction layer: abstract transport -/

/-- The two transport primitives the spec's §6 gives the core:
`readRegister(address) -> value | Error` and `writeRegister(address,
value) -> Ok | Error`, over an opaque transport state `S`.  Results
follow the C convention of `ad9523_read` / `ad9523_write`: a negative
`Int` is an error code, a non-negative one the read value (for reads)
or success (for writes). -/
structure Transport (S : Type) where
  read : S → Nat → Int × S
  write : S → Nat → Nat → Int × S

/-- One bus operation, for observing which transactions a protocol
issues and in which order. -/
inductive BusOp where
  | rd (addr : Nat)
  | wr (addr : Nat) (val : Nat)
deriving DecidableEq, Repr

/-- Wrap a transport so that every read and write is appended to a log,
leaving results and the underlying state evolution unchanged. -/
def withLog {S : Type} (t : Transport S) : Transport (S × List BusOp) where
  read := fun s a => ((t.read s.1 a).1, ((t.read s.1 a).2, s.2 ++ [BusOp.rd a]))
  write := fun s a v => ((t.write s.1 a v).1, ((t.write s.1 a v).2, s.2 ++ [BusOp.wr a v]))

/-- `ad9523_io_update`: write the IO_UPDATE_EN bit to the IO_UPDATE
register, latching pending register writes. -/
def ad9523_io_update {S : Type} (t : Transport S) (s : S) : Int × S :=
  t.write s AD9523_IO_UPDATE AD9523_IO_UPDATE_EN

/-- `ad9523_sync`: read the status-signals register, set the manual sync
control bit, write it back, commit (`ad9523_io_update`, result
discarded exactly as in the source), clear the bit, write it back, and
return the final commit's result.  A failing read or status write
returns that error immediately. -/
def ad9523_sync {S : Type} (t : Transport S) (s : S) : Int × S :=
  let rs := t.read s AD9523_STATUS_SIGNALS
  if rs.1 < 0 then rs
  else
    let tmp := rs.1.toNat ||| AD9523_STATUS_SIGNALS_SYNC_MAN_CTRL
    let w1 := t.write rs.2 AD9523_STATUS_SIGNALS tmp
    if w1.1 < 0 then w1
    else
      let u1 := ad9523_io_update t w1.2
      let tmp2 := tmp &&& (0xFFFFFFFF ^^^ AD9523_STATUS_SIGNALS_SYNC_MAN_CTRL)
      let w2 := t.write u1.2 AD9523_STATUS_SIGNALS tmp2
      if w2.1 < 0 then w2
      else ad9523_io_update t w2.2

/-- The `tmp = 4; do { msleep(20); ret = read(status); if (ret < 0)
return ret; } while ((ret & IN_PROGRESS) && tmp--)` poll loop of
`ad9523_store_eeprom`: the body runs once, then repeats while the
in-progress bit is set and the pre-decrement counter was non-zero —
at most `tmp + 1` reads in total (5 when entered with `tmp = 4`). -/
def eepromPoll {S : Type} (t : Transport S) : Nat → S → Int × S
  | tmp, s =>
    let r := t.read s AD9523_EEPROM_DATA_XFER_STATUS
    if r.1 < 0 then r
    else
      match tmp with
      | 0 => r
      | tm + 1 =>
        if r.1.toNat &&& AD9523_EEPROM_DATA_XFER_IN_PROGRESS ≠ 0 then
          eepromPoll t tm r.2
        else r

/-- The tail of `ad9523_store_eeprom` after the poll loop: re-enable
write protection (write 0 to `EEPROM_CTRL1`), read the error-readback
register, and fail with `-EIO` when its fail bit is set; otherwise the
readback value itself is returned. -/
def eepromVerify {S : Type} (t : Transport S) (s : S) : Int × S :=
  let w3 := t.write s AD9523_EEPROM_CTRL1 0
  if w3.1 < 0 then w3
  else
    let rb := t.read w3.2 AD9523_EEPROM_ERROR_READBACK
    if rb.1 < 0 then rb
    else if rb.1.toNat &&& AD9523_EEPROM_ERROR_READBACK_FAIL ≠ 0 then
      (negEIOcode, rb.2)
    else rb

/-- `ad9523_store_eeprom`: disable write protection, trigger the
register-to-EEPROM transfer, poll the transfer-status register (at most
5 reads), then run the verify tail.  Note the source checks the poll
result only for transport errors; a transfer still in progress after
the last poll falls through to the verify tail. -/
def ad9523_store_eeprom {S : Type} (t : Transport S) (s : S) : Int × S :=
  let w1 := t.write s AD9523_EEPROM_CTRL1 AD9523_EEPROM_CTRL1_EEPROM_WRITE_PROT_DIS
  if w1.1 < 0 then w1
  else
    let w2 := t.write w1.2 AD9523_EEPROM_CTRL2 AD9523_EEPROM_CTRL2_REG2EEPROM
    if w2.1 < 0 then w2
    else
      let pl := eepromPoll t 4 w2.2
      if pl.1 < 0 then pl
      else eepromVerify t pl.2

/-- The read/write integrity check of `ad9523_setup` (source lines
1026-1045): save the EEPROM customer version ID register, write the
sentinel `0xAD95`, read it back, fail with `-EIO` when the readback
differs, and finally write the saved original value back. -/
def ad9523_setup_verify {S : Type} (t : Transport S) (s : S) : Int × S :=
  let r1 := t.read s AD9523_EEPROM_CUSTOMER_VERSION_ID
  if r1.1 < 0 then r1
  else
    let w1 := t.write r1.2 AD9523_EEPROM_CUSTOMER_VERSION_ID 0xAD95
    if w1.1 < 0 then w1
    else
      let r2 := t.read w1.2 AD9523_EEPROM_CUSTOMER_VERSION_ID
      if r2.1 < 0 then r2
      else if r2.1 ≠ 0xAD95 then (negEIOcode, r2.2)
      else t.write r2.2 AD9523_EEPROM_CUSTOMER_VERSION_ID r1.1.toNat

/-! ### Concrete transports used as test doubles -/

/-- An ideal register-file transport: reads return the stored value,
writes store the value and succeed.  Models a fault-free device. -/
def regStore : Transport (Nat → Nat) where
  read := fun s a => ((s a : Int), s)
  write := fun s a v => (0, fun a' => if a' = a then v else s a')

/-- A transport whose transfer-status register reports "in progress"
forever; all other reads return 0 and all writes succeed. -/
def stuckTransport : Transport Unit where
  read := fun s a => (if a = AD9523_EEPROM_DATA_XFER_STATUS then 1 else 0, s)
  write := fun s _ _ => (0, s)

/-- A transport on which the first IO_UPDATE commit fails with `-5` and
every later operation succeeds; the state counts IO_UPDATE writes. -/
def flakyCommitTransport : Transport Nat where
  read := fun s _ => (0, s)
  write := fun s a _ =>
    if a = AD9523_IO_UPDATE then
      if s = 0 then (-5, 1) else (0, s + 1)
    else (0, s)

/-- A transport whose reads always fail with `-5`. -/
def failReadTransport : Transport Unit where
  read := fun s _ => (-5, s)
  write := fun s _ _ => (0, s)

/-! ### Helper lemmas -/

theorem absDiff_comm (a b : Nat) : absDiff a b = absDiff b a := by
  unfold absDiff
  omega

theorem absDiff_eq (a b : Nat) : absDiff a b = a - b + (b - a) := by
  unfold absDiff
  omega

theorem pll2_valid_div_false_lt {n : Nat} (h : ad9523_pll2_valid_div n = false) :
    n < 28 := by
  unfold ad9523_pll2_valid_div at h
  split at h
  · omega
  · split at h
    · omega
    · split at h
      · omega
      · split at h
        · omega
        · split at h
          · omega
          · exact absurd h (by simp)

theorem pll2_valid_div_of_ge {n : Nat} (h : 28 ≤ n) :
    ad9523_pll2_valid_div n = true := by
  unfold ad9523_pll2_valid_div
  split
  · omega
  · split
    · omega
    · split
      · omega
      · split
        · omega
        · split
          · omega
          · rfl

theorem vcoRangeB_iff {f : Nat} :
    vcoRangeB f = true ↔ 2940000 ≤ f ∧ f ≤ 3100000 := by
  unfold vcoRangeB AD9523_VCO_FREQ_MIN AD9523_VCO_FREQ_MAX
  simp

theorem mSearch_spec {mf : Nat} (h : mSearch mf ≠ 6) :
    3 ≤ mSearch mf ∧ mSearch mf ≤ 5 ∧ vcoRangeB (mf * mSearch mf) = true ∧
      ∀ m', 3 ≤ m' → m' < mSearch mf → vcoRangeB (mf * m') = false := by
  by_cases h3 : vcoRangeB (mf * 3) = true
  · have e : mSearch mf = 3 := by unfold mSearch; rw [if_pos h3]
    rw [e]
    exact ⟨by omega, by omega, h3, fun m' hm3 hm => by omega⟩
  · by_cases h4 : vcoRangeB (mf * 4) = true
    · have e : mSearch mf = 4 := by unfold mSearch; rw [if_neg h3, if_pos h4]
      rw [e]
      refine ⟨by omega, by omega, h4, ?_⟩
      intro m' hm3 hm4
      have hm : m' = 3 := by omega
      subst hm
      simpa using h3
    · by_cases h5 : vcoRangeB (mf * 5) = true
      · have e : mSearch mf = 5 := by
          unfold mSearch; rw [if_neg h3, if_neg h4, if_pos h5]
        rw [e]
        refine ⟨by omega, by omega, h5, ?_⟩
        intro m' hm3 hm5
        interval_cases m'
        · simpa using h3
        · simpa using h4
      · have e : mSearch mf = 6 := by
          unfold mSearch; rw [if_neg h3, if_neg h4, if_neg h5]
        exact absurd e h

theorem mSearch_exhausted {mf : Nat}
    (h3 : vcoRangeB (mf * 3) = false) (h4 : vcoRangeB (mf * 4) = false)
    (h5 : vcoRangeB (mf * 5) = false) : mSearch mf = 6 := by
  unfold mSearch
  simp [h3, h4, h5]


theorem ratBest_append (num den : Nat) (l₁ l₂ : List (Nat × Nat)) :
    ∀ b, ratBest num den (l₁ ++ l₂) b = ratBest num den l₂ (ratBest num den l₁ b) := by
  induction l₁ with
  | nil => intro b; rfl
  | cons c cs ih =>
    intro b
    obtain ⟨bn, bd⟩ := b
    rw [List.cons_append, ratBest, ratBest, ih]

theorem ratBestRows_eq (num den maxD : Nat) :
    ∀ ns b, ratBestRows num den maxD ns b =
      ratBest num den (ns.flatMap (ratRows maxD)) b := by
  intro ns
  induction ns with
  | nil => intro b; rfl
  | cons n ns ih =>
    intro b
    obtain ⟨bn, bd⟩ := b
    rw [ratBestRows, List.flatMap_cons, ratBest_append, ih]

/-- The row-wise argmin scan agrees with the flat scan over the full
candidate list. -/
theorem ratBestRows_cands (num den maxN maxD : Nat) (b : Nat × Nat) :
    ratBestRows num den maxD (List.range (maxN + 1)) b =
      ratBest num den (ratCandidates maxN maxD) b :=
  ratBestRows_eq num den maxD (List.range (maxN + 1)) b

theorem ratBest_pred (num den : Nat) (Q : Nat × Nat → Prop) (l : List (Nat × Nat)) :
    ∀ b, (∀ c ∈ l, Q c) → Q b → Q (ratBest num den l b) := by
  induction l with
  | nil => intro b _ hb; exact hb
  | cons c cs ih =>
    intro b hl hb
    obtain ⟨bn, bd⟩ := b
    rw [ratBest]
    refine ih _ (fun x hx => hl x (List.mem_cons_of_mem _ hx)) ?_
    split
    · exact hl c (List.mem_cons_self _ _)
    · exact hb

theorem ratBest_inv (num den : Nat) (J : Nat × Nat → Prop) (l : List (Nat × Nat))
    (hstep : ∀ acc c, c ∈ l → J acc → ratBetter num den c acc → J c) :
    ∀ b, J b → J (ratBest num den l b) := by
  induction l with
  | nil => intro b hb; exact hb
  | cons c cs ih =>
    intro b hb
    obtain ⟨bn, bd⟩ := b
    rw [ratBest]
    refine ih (fun acc x hx => hstep acc x (List.mem_cons_of_mem _ hx)) _ ?_
    split
    · exact hstep (bn, bd) c (List.mem_cons_self _ _) hb ‹_›
    · exact hb

theorem ratCandidates_mem (maxN maxD n d : Nat) (hn : n ≤ maxN) (hd1 : 1 ≤ d)
    (hd : d ≤ maxD) : (n, d) ∈ ratCandidates maxN maxD := by
  unfold ratCandidates ratRows
  rw [List.mem_flatMap]
  refine ⟨n, by rw [List.mem_range]; omega, ?_⟩
  rw [List.mem_map]
  exact ⟨d - 1, by rw [List.mem_range]; omega, by simp; omega⟩

theorem ratCandidates_d_pos (maxN maxD : Nat) :
    ∀ c ∈ ratCandidates maxN maxD, 1 ≤ c.2 := by
  intro c hc
  unfold ratCandidates ratRows at hc
  rw [List.mem_flatMap] at hc
  obtain ⟨n, -, hc⟩ := hc
  rw [List.mem_map] at hc
  obtain ⟨d, -, rfl⟩ := hc
  omega

/-- The spec-modelled approximator always returns a positive
denominator. -/
theorem rational_d_pos (num den maxN maxD : Nat) :
    1 ≤ (rational_best_approximation num den maxN maxD).2 := by
  unfold rational_best_approximation
  split
  · omega
  · rw [ratBestRows_cands]
    exact ratBest_pred num den (fun c => 1 ≤ c.2) _ _
      (ratCandidates_d_pos maxN maxD) (by omega)

theorem ratErr_zero (num den d : Nat) : ratErr num den 0 d = num * d := by
  unfold ratErr absDiff
  omega

/-- The spec-modelled approximator returns a positive numerator whenever
the target ratio is at least `1/4` (in the form `den < 4 * num`) — in
particular on every ratio the solver can pass to it.  Key step: the
candidate `1/2` has error strictly below the error `num/den` shared by
all zero-numerator candidates, so the argmin cannot settle on a
zero-numerator fraction. -/
theorem rational_n_pos (num den : Nat) (hnum : 1 ≤ num) (hden : den < 4 * num) :
    1 ≤ (rational_best_approximation num den 255 31).1 := by
  unfold rational_best_approximation
  split
  · omega
  · next hden0 =>
    rw [ratBestRows_cands]
    have hden1 : 1 ≤ den := by omega
    obtain ⟨l₁, l₂, hsplit⟩ :=
      List.append_of_mem (ratCandidates_mem 255 31 1 2 (by omega) (by omega) (by omega))
    have hl₂d : ∀ c ∈ l₂, 1 ≤ c.2 := by
      intro c hc
      refine ratCandidates_d_pos 255 31 c ?_
      rw [hsplit]
      exact List.mem_append_right _ (List.mem_cons_of_mem _ hc)
    rw [hsplit, ratBest_append]
    have hA2 : 1 ≤ (ratBest num den l₁ (0, 1)).2 := by
      refine ratBest_pred num den (fun c => 1 ≤ c.2) _ _ ?_ (by omega)
      intro c hc
      refine ratCandidates_d_pos 255 31 c ?_
      rw [hsplit]
      exact List.mem_append_left _ hc
    rcases hAeq : ratBest num den l₁ (0, 1) with ⟨an, ad⟩
    rw [hAeq] at hA2
    simp only at hA2
    rw [ratBest]
    have hJstep :
        ∀ acc c, c ∈ l₂ →
          (ratErr num den acc.1 acc.2 * 2 ≤ ratErr num den 1 2 * acc.2 ∧ 1 ≤ acc.2) →
          ratBetter num den c acc →
          (ratErr num den c.1 c.2 * 2 ≤ ratErr num den 1 2 * c.2 ∧ 1 ≤ c.2) := by
      intro acc c hc hJand hbet
      obtain ⟨hJ, hacc⟩ := hJand
      refine ⟨?_, hl₂d c hc⟩
      rcases hbet with hlt | ⟨heq, -⟩
      · have h1 : ratErr num den c.1 c.2 * 2 * acc.2 <
            ratErr num den acc.1 acc.2 * 2 * c.2 := by
          calc ratErr num den c.1 c.2 * 2 * acc.2
              = ratErr num den c.1 c.2 * acc.2 * 2 := by ring
            _ < ratErr num den acc.1 acc.2 * c.2 * 2 := by omega
            _ = ratErr num den acc.1 acc.2 * 2 * c.2 := by ring
        have h2 : ratErr num den acc.1 acc.2 * 2 * c.2 ≤
            ratErr num den 1 2 * acc.2 * c.2 :=
          Nat.mul_le_mul_right _ hJ
        have h3 : ratErr num den c.1 c.2 * 2 * acc.2 <
            ratErr num den 1 2 * c.2 * acc.2 := by
          calc ratErr num den c.1 c.2 * 2 * acc.2
              < ratErr num den 1 2 * acc.2 * c.2 := lt_of_lt_of_le h1 h2
            _ = ratErr num den 1 2 * c.2 * acc.2 := by ring
        exact le_of_lt (Nat.lt_of_mul_lt_mul_right h3)
      · have h2 : ratErr num den acc.1 acc.2 * 2 * c.2 ≤
            ratErr num den 1 2 * acc.2 * c.2 :=
          Nat.mul_le_mul_right _ hJ
        have h3 : ratErr num den c.1 c.2 * 2 * acc.2 ≤
            ratErr num den 1 2 * c.2 * acc.2 := by
          calc ratErr num den c.1 c.2 * 2 * acc.2
              = ratErr num den c.1 c.2 * acc.2 * 2 := by ring
            _ = ratErr num den acc.1 acc.2 * c.2 * 2 := by omega
            _ = ratErr num den acc.1 acc.2 * 2 * c.2 := by ring
            _ ≤ ratErr num den 1 2 * acc.2 * c.2 := h2
            _ = ratErr num den 1 2 * c.2 * acc.2 := by ring
        exact Nat.le_of_mul_le_mul_right h3 (by omega)
    have hJ0 :
        ratErr num den (if ratBetter num den (1, 2) (an, ad) then (1, 2)
            else (an, ad)).1
          (if ratBetter num den (1, 2) (an, ad) then (1, 2) else (an, ad)).2 * 2 ≤
        ratErr num den 1 2 *
          (if ratBetter num den (1, 2) (an, ad) then (1, 2) else (an, ad)).2 ∧
        1 ≤ (if ratBetter num den (1, 2) (an, ad) then (1, 2) else (an, ad)).2 := by
      split
      · simp
      · next hnb =>
        unfold ratBetter at hnb
        push_neg at hnb
        simp only at hnb ⊢
        exact ⟨hnb.1, hA2⟩
    have hJR := ratBest_inv num den
      (fun c => ratErr num den c.1 c.2 * 2 ≤ ratErr num den 1 2 * c.2 ∧ 1 ≤ c.2)
      l₂ hJstep _ hJ0
    set R := ratBest num den l₂
      (if ratBetter num den (1, 2) (an, ad) then (1, 2) else (an, ad)) with hR
    obtain ⟨hJineq, hR2⟩ := hJR
    by_contra hR1
    have hR10 : R.1 = 0 := by omega
    rw [hR10, ratErr_zero] at hJineq
    have harr : (num * 2) * R.2 ≤ ratErr num den 1 2 * R.2 := by
      calc (num * 2) * R.2 = num * R.2 * 2 := by ring
        _ ≤ ratErr num den 1 2 * R.2 := hJineq
    have hcore : num * 2 ≤ ratErr num den 1 2 :=
      Nat.le_of_mul_le_mul_right harr (by omega)
    have herr12 : ratErr num den 1 2 = (num * 2 - den * 1) + (den * 1 - num * 2) := by
      unfold ratErr
      exact absDiff_eq _ _
    omega

/-- With budget `k + (28 - n)` of fuel, where `2^k` halvings suffice to
legalise the comparison frequency, the loop exhausts its condition:
the final comparison frequency is at most 259000 and the final N
divider is valid. -/
theorem calcLoopAux_exit :
    ∀ fuel k fpfd n r, 1 ≤ n → fpfd < 259000 * 2 ^ k → k + (28 - n) ≤ fuel →
      (calcLoopAux fuel fpfd n r).1 ≤ 259000 ∧
        ad9523_pll2_valid_div (calcLoopAux fuel fpfd n r).2.1 = true := by
  intro fuel
  induction fuel with
  | zero =>
    intro k fpfd n r hn hk hb
    have hk0 : k = 0 := by omega
    subst hk0
    rw [pow_zero, mul_one] at hk
    have hn28 : 28 ≤ n := by omega
    exact ⟨by rw [calcLoopAux]; omega, by rw [calcLoopAux]; exact pll2_valid_div_of_ge hn28⟩
  | succ fuel ih =>
    intro k fpfd n r hn hk hb
    rw [calcLoopAux]
    split
    · next hcond =>
      rcases hcond with hf | hv
      · have hkpos : 1 ≤ k := by
          by_contra hk0
          have : k = 0 := by omega
          subst this
          rw [pow_zero, mul_one] at hk
          omega
        have hk' : fpfd / 2 < 259000 * 2 ^ (k - 1) := by
          have : fpfd < 259000 * 2 ^ (k - 1) * 2 := by
            have he : 259000 * 2 ^ (k - 1) * 2 = 259000 * 2 ^ k := by
              rw [mul_assoc, ← pow_succ]
              congr 2
              omega
            omega
          omega
        exact ih (k - 1) (fpfd / 2) (n * 2) (r * 2) (by omega) hk' (by omega)
      · have hn28 : n < 28 := pll2_valid_div_false_lt hv
        have hk' : fpfd / 2 < 259000 * 2 ^ k := by
          have : fpfd / 2 ≤ fpfd := Nat.div_le_self _ _
          omega
        exact ih k (fpfd / 2) (n * 2) (r * 2) (by omega) hk' (by omega)
    · next hcond =>
      push_neg at hcond
      obtain ⟨hf, hv⟩ := hcond
      exact ⟨by omega, by simpa using hv⟩

/-- Whatever the fuel, the loop's state transformation preserves the
truncated product `c * n / r` (each iteration doubles `n` and `r`). -/
theorem calcLoopAux_div_inv :
    ∀ fuel c fpfd n r,
      c * (calcLoopAux fuel fpfd n r).2.1 / (calcLoopAux fuel fpfd n r).2.2 =
        c * n / r := by
  intro fuel
  induction fuel with
  | zero => intro c fpfd n r; rw [calcLoopAux]
  | succ fuel ih =>
    intro c fpfd n r
    rw [calcLoopAux]
    split
    · rw [ih]
      have he : c * (n * 2) = c * n * 2 := by ring
      rw [he, Nat.mul_div_mul_right _ _ (by omega : (0:Nat) < 2)]
    · rfl

/-- Whatever the fuel, the loop preserves positivity of the N divider. -/
theorem calcLoopAux_n_pos :
    ∀ fuel fpfd n r, 1 ≤ n → 1 ≤ (calcLoopAux fuel fpfd n r).2.1 := by
  intro fuel
  induction fuel with
  | zero => intro fpfd n r hn; rw [calcLoopAux]; exact hn
  | succ fuel ih =>
    intro fpfd n r hn
    rw [calcLoopAux]
    split
    · exact ih _ _ _ (by omega)
    · exact hn

/-- `calcLoop`'s fixed fuel `fpfd / 131072 + 33` is sufficient: for any
positive initial N divider the loop runs to completion, ending with a
legal comparison frequency and a valid N divider. -/
theorem calcLoop_exit (fpfd n r : Nat) (hn : 1 ≤ n) :
    (calcLoop fpfd n r).1 ≤ 259000 ∧
      ad9523_pll2_valid_div (calcLoop fpfd n r).2.1 = true := by
  unfold calcLoop
  set q := fpfd / 131072 with hq
  have h2q : q + 1 ≤ 2 ^ q := Nat.lt_two_pow q
  have hbound : fpfd < 259000 * 2 ^ (q + 6) := by
    have h1 : fpfd < 131072 * (q + 1) := by omega
    have h2 : 131072 * (q + 1) ≤ 131072 * 2 ^ q := Nat.mul_le_mul_left _ h2q
    have h3 : (131072 : Nat) * 2 ^ q ≤ 259000 * 2 ^ q := Nat.mul_le_mul_right _ (by omega)
    have h4 : (259000 : Nat) * 2 ^ q ≤ 259000 * 2 ^ (q + 6) := by
      refine Nat.mul_le_mul_left _ ?_
      exact Nat.pow_le_pow_right (by omega) (by omega)
    omega
  exact calcLoopAux_exit (q + 33) (q + 6) fpfd n r hn hbound (by omega)

/-- With budget `k + (28 - n)` of fuel the honestly-fueled loop
variant reaches its exit, returning `some`. -/
theorem calcLoopFuel_some :
    ∀ fuel k fpfd n r, 1 ≤ n → fpfd < 259000 * 2 ^ k → k + (28 - n) < fuel →
      ∃ s, calcLoopFuel fuel fpfd n r = some s := by
  intro fuel
  induction fuel with
  | zero => intro k fpfd n r _ _ hb; omega
  | succ fuel ih =>
    intro k fpfd n r hn hk hb
    rw [calcLoopFuel]
    split
    · next hcond =>
      rcases hcond with hf | hv
      · have hkpos : 1 ≤ k := by
          by_contra hk0
          have : k = 0 := by omega
          subst this
          rw [pow_zero, mul_one] at hk
          omega
        have hk' : fpfd / 2 < 259000 * 2 ^ (k - 1) := by
          have : fpfd < 259000 * 2 ^ (k - 1) * 2 := by
            have he : 259000 * 2 ^ (k - 1) * 2 = 259000 * 2 ^ k := by
              rw [mul_assoc, ← pow_succ]
              congr 2
              omega
            omega
          omega
        exact ih (k - 1) (fpfd / 2) (n * 2) (r * 2) (by omega) hk' (by omega)
      · have hn28 : n < 28 := pll2_valid_div_false_lt hv
        have hk' : fpfd / 2 < 259000 * 2 ^ k := by
          have : fpfd / 2 ≤ fpfd := Nat.div_le_self _ _
          omega
        exact ih k (fpfd / 2) (n * 2) (r * 2) (by omega) hk' (by omega)
    · exact ⟨(fpfd, n, r), rfl⟩


/-- Shape of every successful `ad9523_calc_dividers` run: the multiplier
search succeeded and the emitted doubler flag, feedback counters and R2
divider come from `calcNR` and the legality loop. -/
theorem calc_some_shape (vcxo m1f m2f : Nat) (p : Pll2Plan) (mf : Nat)
    (hmf : mf = if m1f / 1000 ≠ 0 then m1f / 1000 else m2f / 1000)
    (dnr : Bool × Nat × Nat)
    (hdnr : dnr = calcNR (mf * mSearch mf) (vcxo / 1000))
    (fin : Nat × Nat × Nat)
    (hfin : fin = calcLoop ((vcxo / 1000) * (if dnr.1 then 2 else 1) / dnr.2.2)
              dnr.2.1 dnr.2.2)
    (h : ad9523_calc_dividers vcxo m1f m2f = some p) :
    mSearch mf ≠ 6 ∧ p.pll2_freq_doubler_en = dnr.1 ∧
      p.pll2_ndiv_a_cnt = fin.2.1 % 4 ∧ p.pll2_ndiv_b_cnt = fin.2.1 / 4 ∧
      p.pll2_r2_div = fin.2.2 := by
  subst hmf hdnr hfin
  unfold ad9523_calc_dividers at h
  simp only at h
  by_cases h1 : m1f / 1000 ≠ 0
  · simp only [if_pos h1] at h ⊢
    by_cases h6 : mSearch (m1f / 1000) = 6
    · rw [if_pos h6] at h
      exact absurd h (by simp)
    · rw [if_neg h6] at h
      by_cases h2 : m2f / 1000 ≠ 0
      · simp only [if_pos h2] at h
        by_cases hg : m1f / 1000 * mSearch (m1f / 1000) / (m2f / 1000) < 3 ∨
            5 < m1f / 1000 * mSearch (m1f / 1000) / (m2f / 1000) ∨
            1 < m1f / 1000 * mSearch (m1f / 1000) % (m2f / 1000)
        · rw [if_pos hg] at h
          exact absurd h (by simp)
        · rw [if_neg hg] at h
          have hp := (Option.some.inj h).symm
          subst hp
          exact ⟨h6, rfl, rfl, rfl, rfl⟩
      · simp only [if_neg h2] at h
        have hp := (Option.some.inj h).symm
        subst hp
        exact ⟨h6, rfl, rfl, rfl, rfl⟩
  · simp only [if_neg h1] at h ⊢
    by_cases h6 : mSearch (m2f / 1000) = 6
    · rw [if_pos h6] at h
      exact absurd h (by simp)
    · rw [if_neg h6] at h
      have hp := (Option.some.inj h).symm
      subst hp
      exact ⟨h6, rfl, rfl, rfl, rfl⟩

/-- When the multiplier search exhausts (`m == 6`), the solver fails. -/
theorem calc_none_of_mSearch6 (vcxo m1f m2f : Nat)
    (h6 : mSearch (if m1f / 1000 ≠ 0 then m1f / 1000 else m2f / 1000) = 6) :
    ad9523_calc_dividers vcxo m1f m2f = none := by
  unfold ad9523_calc_dividers
  simp only
  rw [if_pos h6]

/-- When both targets are non-zero (in kHz) and the secondary divider
check `m2 < 3 || m2 > 5 || vco_freq % m2_freq > 1` fires, the solver
fails. -/
theorem calc_none_of_m2bad (vcxo m1f m2f : Nat)
    (h1 : m1f / 1000 ≠ 0) (h2 : m2f / 1000 ≠ 0)
    (h6 : mSearch (m1f / 1000) ≠ 6)
    (hg : m1f / 1000 * mSearch (m1f / 1000) / (m2f / 1000) < 3 ∨
      5 < m1f / 1000 * mSearch (m1f / 1000) / (m2f / 1000) ∨
      1 < m1f / 1000 * mSearch (m1f / 1000) % (m2f / 1000)) :
    ad9523_calc_dividers vcxo m1f m2f = none := by
  unfold ad9523_calc_dividers
  simp only [if_pos h1]
  rw [if_neg h6]
  simp only [if_pos h2]
  rw [if_pos hg]

/-- When both targets are non-zero and the solver succeeds, the emitted
secondary VCO divider is `vco_freq / m2_freq` (kHz), it lies in `[3,5]`,
and the division remainder is at most 1. -/
theorem calc_some_m2 (vcxo m1f m2f : Nat) (p : Pll2Plan)
    (h1 : m1f / 1000 ≠ 0) (h2 : m2f / 1000 ≠ 0)
    (h : ad9523_calc_dividers vcxo m1f m2f = some p) :
    p.pll2_vco_div_m2 = m1f / 1000 * mSearch (m1f / 1000) / (m2f / 1000) ∧
      3 ≤ p.pll2_vco_div_m2 ∧ p.pll2_vco_div_m2 ≤ 5 ∧
      m1f / 1000 * mSearch (m1f / 1000) % (m2f / 1000) ≤ 1 := by
  unfold ad9523_calc_dividers at h
  simp only [if_pos h1] at h
  by_cases h6 : mSearch (m1f / 1000) = 6
  · rw [if_pos h6] at h
    exact absurd h (by simp)
  · rw [if_neg h6] at h
    simp only [if_pos h2] at h
    by_cases hg : m1f / 1000 * mSearch (m1f / 1000) / (m2f / 1000) < 3 ∨
        5 < m1f / 1000 * mSearch (m1f / 1000) / (m2f / 1000) ∨
        1 < m1f / 1000 * mSearch (m1f / 1000) % (m2f / 1000)
    · rw [if_pos hg] at h
      exact absurd h (by simp)
    · rw [if_neg hg] at h
      have hp := (Option.some.inj h).symm
      subst hp
      push_neg at hg
      refine ⟨rfl, ?_, ?_, by omega⟩
      · change 3 ≤ m1f / 1000 * mSearch (m1f / 1000) / (m2f / 1000)
        omega
      · change m1f / 1000 * mSearch (m1f / 1000) / (m2f / 1000) ≤ 5
        omega

/-- Both candidate selections of `calcNR` give a positive N divider when
the target VCO frequency is in range and the oscillator (kHz) is small
enough — in particular whenever the oscillator fits in 32 bits of Hz. -/
theorem calcNR_n_pos (vco vk : Nat) (hv : 2940000 ≤ vco) (hk : vk * 2 < 4 * vco) :
    1 ≤ (calcNR vco vk).2.1 := by
  unfold calcNR
  simp only
  split
  · split
    · exact rational_n_pos vco (vk * 2) (by omega) (by omega)
    · exact rational_n_pos vco vk (by omega) (by omega)
  · exact rational_n_pos vco vk (by omega) (by omega)

/-- `calcNR` always returns a positive R divider. -/
theorem calcNR_d_pos (vco vk : Nat) : 1 ≤ (calcNR vco vk).2.2 := by
  unfold calcNR
  simp only
  split
  · split
    · exact rational_d_pos vco (vk * 2) 255 31
    · exact rational_d_pos vco vk 255 31
  · exact rational_d_pos vco vk 255 31

/-- When the first approximation reproduces the VCO frequency exactly,
`calcNR` keeps it and leaves the frequency doubler disabled. -/
theorem calcNR_exact (vco vk : Nat)
    (he : vco = vk * (rational_best_approximation vco vk 255 31).1 /
      (rational_best_approximation vco vk 255 31).2) :
    calcNR vco vk = (false, rational_best_approximation vco vk 255 31) := by
  unfold calcNR
  simp only
  rw [if_neg (by omega : ¬ vco ≠ vk * (rational_best_approximation vco vk 255 31).1 /
    (rational_best_approximation vco vk 255 31).2)]

/-! ### Claims about the plan solver -/

/-- Claim C2, amended: what `ad9523_calc_dividers` keeps out of the
forbidden set `{<16} ∪ {18,19,23,27}` is the feedback N divider it
emits (`4 * pll2_ndiv_b_cnt + pll2_ndiv_a_cnt`), for every successful
run with a 32-bit oscillator frequency — not the reference R2 divider
(see the counterexample). -/
theorem claim2_theorem (vcxo m1f m2f : Nat) (p : Pll2Plan)
    (h32 : vcxo < 4294967296)
    (h : ad9523_calc_dividers vcxo m1f m2f = some p) :
    ad9523_pll2_valid_div (4 * p.pll2_ndiv_b_cnt + p.pll2_ndiv_a_cnt) = true := by
  obtain ⟨h6, hdb, ha, hb, hr⟩ := calc_some_shape vcxo m1f m2f p _ rfl _ rfl _ rfl h
  obtain ⟨-, -, hrange, -⟩ := mSearch_spec h6
  rw [vcoRangeB_iff] at hrange
  have hn : 1 ≤ (calcNR ((if m1f / 1000 ≠ 0 then m1f / 1000 else m2f / 1000) *
      mSearch (if m1f / 1000 ≠ 0 then m1f / 1000 else m2f / 1000)) (vcxo / 1000)).2.1 := by
    refine calcNR_n_pos _ _ (by omega) ?_
    omega
  rw [ha, hb, Nat.div_add_mod]
  exact (calcLoop_exit _ _ _ hn).2

/-- Claim C2, counterexample: at oscillator 980 MHz and tap-1 target
980 MHz the solver succeeds and emits `pll2_r2_div = 8`, which is in
the claimed forbidden set (it is below 16): the forbidden-divider check
of the source constrains N, not R2. -/
theorem claim2_counterexample :
    (ad9523_calc_dividers 980000000 980000000 0).map (fun p => p.pll2_r2_div) =
      some 8 ∧ (8 : Nat) < 16 :=
  ⟨by decide, by decide⟩

/-- Claim C2, witness for the amended theorem. -/
theorem claim2_witness :
    ad9523_pll2_valid_div
      (4 * ({ pll2_r2_div := 8, pll2_vco_div_m1 := 3, pll2_vco_div_m2 := 3,
              pll2_ndiv_a_cnt := 0, pll2_ndiv_b_cnt := 6,
              pll2_freq_doubler_en := false } : Pll2Plan).pll2_ndiv_b_cnt +
        ({ pll2_r2_div := 8, pll2_vco_div_m1 := 3, pll2_vco_div_m2 := 3,
           pll2_ndiv_a_cnt := 0, pll2_ndiv_b_cnt := 6,
           pll2_freq_doubler_en := false } : Pll2Plan).pll2_ndiv_a_cnt) = true :=
  claim2_theorem 980000000 980000000 0 _ (by decide) (by decide)

/-- Claim C1, amended: for every oscillator and non-zero tap-1 target on
which the solver succeeds, **provided the initial rational approximation
reproduces the VCO frequency exactly** (`vcoK = vcxoK * n / r` with
truncating division — the spec's "ratio expressible within bounds"),
the plan's recomputed VCO frequency
`vcxoK * (2 if doubler else 1) * (4*B + A) / R2` lies in
[2940000, 3100000] kHz.  Without the exactness proviso the claim is
false (see the counterexample). -/
theorem claim1_theorem (vcxo m1f m2f : Nat) (p : Pll2Plan)
    (h1 : m1f / 1000 ≠ 0)
    (h : ad9523_calc_dividers vcxo m1f m2f = some p)
    (hex : m1f / 1000 * mSearch (m1f / 1000) =
      vcxo / 1000 *
        (rational_best_approximation (m1f / 1000 * mSearch (m1f / 1000))
          (vcxo / 1000) 255 31).1 /
        (rational_best_approximation (m1f / 1000 * mSearch (m1f / 1000))
          (vcxo / 1000) 255 31).2) :
    2940000 ≤ recomputedVco p (vcxo / 1000) ∧
      recomputedVco p (vcxo / 1000) ≤ 3100000 := by
  obtain ⟨h6, hdb, ha, hb, hr⟩ :=
    calc_some_shape vcxo m1f m2f p (m1f / 1000) (if_pos h1).symm _ rfl _ rfl h
  obtain ⟨-, -, hrange, -⟩ := mSearch_spec h6
  rw [vcoRangeB_iff] at hrange
  have hNR := calcNR_exact (m1f / 1000 * mSearch (m1f / 1000)) (vcxo / 1000) hex
  rw [hNR] at hdb ha hb hr
  simp only [if_neg (Bool.false_ne_true)] at ha hb hr
  have hdb' : p.pll2_freq_doubler_en = false := hdb
  unfold recomputedVco
  rw [hdb', ha, hb, hr, Nat.div_add_mod, if_neg (Bool.false_ne_true)]
  unfold calcLoop
  rw [calcLoopAux_div_inv, mul_one, ← hex]
  exact hrange

/-- Claim C1, counterexample: with a 4000.037 MHz oscillator and a
980 MHz tap-1 target the solver succeeds, but the plan's recomputed VCO
frequency is 2933360 kHz — 6640 kHz below the 2940000 kHz lower bound,
because the rational approximation `n/r` of `vco/vcxo` is inexact and
its error is re-amplified by the oscillator frequency. -/
theorem claim1_counterexample :
    (ad9523_calc_dividers 4000037000 980000000 0).map
      (fun p => recomputedVco p (4000037000 / 1000)) = some 2933360 ∧
      2933360 < 2940000 :=
  ⟨by decide, by decide⟩

/-- Claim C1, witness for the amended theorem: oscillator 980 MHz,
tap-1 target 980 MHz; the approximation `3/1` is exact and the
recomputed VCO frequency (2940000 kHz) is in range. -/
theorem claim1_witness :
    2940000 ≤ recomputedVco
        { pll2_r2_div := 8, pll2_vco_div_m1 := 3, pll2_vco_div_m2 := 3,
          pll2_ndiv_a_cnt := 0, pll2_ndiv_b_cnt := 6,
          pll2_freq_doubler_en := false } (980000000 / 1000) ∧
      recomputedVco
        { pll2_r2_div := 8, pll2_vco_div_m1 := 3, pll2_vco_div_m2 := 3,
          pll2_ndiv_a_cnt := 0, pll2_ndiv_b_cnt := 6,
          pll2_freq_doubler_en := false } (980000000 / 1000) ≤ 3100000 :=
  claim1_theorem 980000000 980000000 0 _ (by decide) (by decide) (by decide)

/-- Claim C3, amended: with both targets non-zero (in kHz), the solver
computes `m2 = vcoFreq / tap2TargetHz` and fails unless `m2 ∈ [3,5]`
**and the remainder of the division is at most 1** — the source's guard
is `vco_freq % m2_freq > 1`, so a remainder of exactly 1 is tolerated
(see the counterexample); any remainder larger than 1 causes failure. -/
theorem claim3_theorem :
    (∀ vcxo m1f m2f (p : Pll2Plan), m1f / 1000 ≠ 0 → m2f / 1000 ≠ 0 →
      ad9523_calc_dividers vcxo m1f m2f = some p →
      p.pll2_vco_div_m2 = m1f / 1000 * mSearch (m1f / 1000) / (m2f / 1000) ∧
        3 ≤ p.pll2_vco_div_m2 ∧ p.pll2_vco_div_m2 ≤ 5 ∧
        m1f / 1000 * mSearch (m1f / 1000) % (m2f / 1000) ≤ 1) ∧
    (∀ vcxo m1f m2f, m1f / 1000 ≠ 0 → m2f / 1000 ≠ 0 →
      mSearch (m1f / 1000) ≠ 6 →
      (m1f / 1000 * mSearch (m1f / 1000) / (m2f / 1000) < 3 ∨
        5 < m1f / 1000 * mSearch (m1f / 1000) / (m2f / 1000) ∨
        1 < m1f / 1000 * mSearch (m1f / 1000) % (m2f / 1000)) →
      ad9523_calc_dividers vcxo m1f m2f = none) :=
  ⟨fun vcxo m1f m2f p h1 h2 h => calc_some_m2 vcxo m1f m2f p h1 h2 h,
   fun vcxo m1f m2f h1 h2 h6 hg => calc_none_of_m2bad vcxo m1f m2f h1 h2 h6 hg⟩

/-- Claim C3, counterexample: with `vcxo = 1 GHz`, `tap1 = 999.983 MHz`,
`tap2 = 749.987 MHz`, the VCO frequency is 2999949 kHz, and
`2999949 % 749987 = 1` — a non-zero remainder — yet the solver
succeeds, because the source only rejects remainders larger than 1. -/
theorem claim3_counterexample :
    (ad9523_calc_dividers 1000000000 999983000 749987000).isSome = true ∧
      999983000 / 1000 * mSearch (999983000 / 1000) % (749987000 / 1000) = 1 :=
  ⟨by decide, by decide⟩

/-- Claim C3, witness for the amended theorem: both the
success-with-remainder-1 branch and the failure-with-remainder-5
branch of the amended claim at concrete inputs. -/
theorem claim3_witness :
    (({ pll2_r2_div := 16, pll2_vco_div_m1 := 3, pll2_vco_div_m2 := 4,
        pll2_ndiv_a_cnt := 0, pll2_ndiv_b_cnt := 6,
        pll2_freq_doubler_en := true } : Pll2Plan).pll2_vco_div_m2 =
          999983000 / 1000 * mSearch (999983000 / 1000) / (749987000 / 1000) ∧
      3 ≤ ({ pll2_r2_div := 16, pll2_vco_div_m1 := 3, pll2_vco_div_m2 := 4,
             pll2_ndiv_a_cnt := 0, pll2_ndiv_b_cnt := 6,
             pll2_freq_doubler_en := true } : Pll2Plan).pll2_vco_div_m2 ∧
      ({ pll2_r2_div := 16, pll2_vco_div_m1 := 3, pll2_vco_div_m2 := 4,
         pll2_ndiv_a_cnt := 0, pll2_ndiv_b_cnt := 6,
         pll2_freq_doubler_en := true } : Pll2Plan).pll2_vco_div_m2 ≤ 5 ∧
      999983000 / 1000 * mSearch (999983000 / 1000) % (749987000 / 1000) ≤ 1) ∧
    ad9523_calc_dividers 1000000000 999983000 749986000 = none :=
  ⟨claim3_theorem.1 1000000000 999983000 749987000 _ (by decide) (by decide)
      (by decide),
   claim3_theorem.2 1000000000 999983000 749986000 (by decide) (by decide)
      (by decide) (by decide)⟩

/-- Claim C8, confirmed: the solver selects the smallest multiplier in
`{3,4,5}` that lands `mFreq * multiplier` in [2940000, 3100000] kHz,
and fails (emitting no plan) when no multiplier in `{3,4,5}` does. -/
theorem claim8_theorem :
    (∀ mf mm, 3 ≤ mm → mm ≤ 5 → vcoRangeB (mf * mm) = true →
      3 ≤ mSearch mf ∧ mSearch mf ≤ 5 ∧ vcoRangeB (mf * mSearch mf) = true ∧
        ∀ m', 3 ≤ m' → m' < mSearch mf → vcoRangeB (mf * m') = false) ∧
    (∀ vcxo m1f m2f,
      vcoRangeB ((if m1f / 1000 ≠ 0 then m1f / 1000 else m2f / 1000) * 3) = false →
      vcoRangeB ((if m1f / 1000 ≠ 0 then m1f / 1000 else m2f / 1000) * 4) = false →
      vcoRangeB ((if m1f / 1000 ≠ 0 then m1f / 1000 else m2f / 1000) * 5) = false →
      ad9523_calc_dividers vcxo m1f m2f = none) := by
  constructor
  · intro mf mm h3 h5 hr
    have h6 : mSearch mf ≠ 6 := by
      intro h6
      unfold mSearch at h6
      interval_cases mm
      · by_cases hc3 : vcoRangeB (mf * 3) = true
        · rw [if_pos hc3] at h6; omega
        · exact hc3 hr
      · by_cases hc3 : vcoRangeB (mf * 3) = true
        · rw [if_pos hc3] at h6; omega
        · rw [if_neg hc3] at h6
          by_cases hc4 : vcoRangeB (mf * 4) = true
          · rw [if_pos hc4] at h6; omega
          · exact hc4 hr
      · by_cases hc3 : vcoRangeB (mf * 3) = true
        · rw [if_pos hc3] at h6; omega
        · rw [if_neg hc3] at h6
          by_cases hc4 : vcoRangeB (mf * 4) = true
          · rw [if_pos hc4] at h6; omega
          · rw [if_neg hc4] at h6
            by_cases hc5 : vcoRangeB (mf * 5) = true
            · rw [if_pos hc5] at h6; omega
            · exact hc5 hr
    exact mSearch_spec h6
  · intro vcxo m1f m2f h3 h4 h5
    exact calc_none_of_mSearch6 vcxo m1f m2f (mSearch_exhausted h3 h4 h5)

/-- Claim C8, witness: at `mFreq = 980000` kHz the search picks a
multiplier in range, and at a 10 MHz primary target (10000 kHz, whose
multiples 30000..50000 kHz are all far below the VCO band) the solver
fails outright. -/
theorem claim8_witness :
    (3 ≤ mSearch 980000 ∧ mSearch 980000 ≤ 5 ∧
      vcoRangeB (980000 * mSearch 980000) = true ∧
      ∀ m', 3 ≤ m' → m' < mSearch 980000 → vcoRangeB (980000 * m') = false) ∧
    ad9523_calc_dividers 122880000 10000000 0 = none :=
  ⟨claim8_theorem.1 980000 3 (by decide) (by decide) (by decide),
   claim8_theorem.2 122880000 10000000 0 (by decide) (by decide) (by decide)⟩

/-- Claim C9, confirmed: for every state reaching the
comparison-frequency legality loop — any `fpfd` and `r`, with the
initial N produced by the rational approximation of a ratio the solver
can build (an in-range VCO frequency over a denominator below `4 *
num`, which covers both the plain and the doubled oscillator) — the
`while (fpfd > 259000 || !valid(n))` loop terminates after finitely
many iterations: some finite fuel makes the fueled loop return
`some` instead of exhausting. -/
theorem claim9_theorem (num den fpfd r : Nat) (hv : 2940000 ≤ num)
    (hden : den < 4 * num) :
    ∃ fuel s, calcLoopFuel fuel fpfd
      (rational_best_approximation num den 255 31).1 r = some s := by
  have hn : 1 ≤ (rational_best_approximation num den 255 31).1 :=
    rational_n_pos num den (by omega) hden
  set q := fpfd / 131072 with hq
  have h2q : q + 1 ≤ 2 ^ q := Nat.lt_two_pow q
  have hbound : fpfd < 259000 * 2 ^ (q + 6) := by
    have h1 : fpfd < 131072 * (q + 1) := by omega
    have h2 : 131072 * (q + 1) ≤ 131072 * 2 ^ q := Nat.mul_le_mul_left _ h2q
    have h3 : (131072 : Nat) * 2 ^ q ≤ 259000 * 2 ^ q := Nat.mul_le_mul_right _ (by omega)
    have h4 : (259000 : Nat) * 2 ^ q ≤ 259000 * 2 ^ (q + 6) := by
      refine Nat.mul_le_mul_left _ ?_
      exact Nat.pow_le_pow_right (by omega) (by omega)
    omega
  obtain ⟨s, hs⟩ := calcLoopFuel_some (q + 34) (q + 6) fpfd
    (rational_best_approximation num den 255 31).1 r hn hbound (by omega)
  exact ⟨q + 34, s, hs⟩

/-- Claim C9, witness: the loop state the solver builds for a 980 MHz
oscillator and 980 MHz tap-1 target terminates. -/
theorem claim9_witness :
    ∃ fuel s, calcLoopFuel fuel 980000
      (rational_best_approximation 2940000 980000 255 31).1 1 = some s :=
  claim9_theorem 2940000 980000 980000 1 (by decide) (by decide)

/-! ### Claims about the clock-source router and the phase write path -/

/-- Claim C4 (code bug): at the spec's own example — channel 5,
requested rate 122880000 Hz, VCO tap 1 at 983040000 Hz, VCO tap 2 at
737280000 Hz — both sources divide the requested rate exactly, so both
rounded-divider residuals are 0 and the spec's policy ("pick whichever
yields smaller absolute residual after re-multiplying the rounded
quotient") must not prefer VcoTap2; yet the code selects the alternate
source (VcoTap2), because `ad9523_set_clock_provider` compares
`abs(tmp1 - freq)` — the re-multiplied quotients against the requested
rate itself — instead of against the source frequencies, which reduces
to picking the source with the larger floor quotient. -/
theorem claim4_theorem :
    ad9523_set_clock_provider 5 0 983040000 737280000 122880000 = some true ∧
      specRoundedResidual 983040000 122880000 = 0 ∧
      specRoundedResidual 737280000 122880000 = 0 :=
  ⟨by decide, by decide, by decide⟩

theorem mask_testBit_false : ∀ i, i < 6 → Nat.testBit 0xFF03FFFF (18 + i) = false := by
  decide

theorem sixtyThree_testBit_true : ∀ i, i < 6 → Nat.testBit 63 i = true := by
  decide

/-- Read-modify-write round trip for the 6-bit phase field at bits
18..23: clearing the field with the 32-bit mask `~(0x3F << 18)`, OR-ing
in a value of at most 63 and reading the field back returns exactly
that value. -/
theorem phase_field_roundtrip (reg t : Nat) (ht : t ≤ 63) :
    (((reg &&& 0xFF03FFFF) ||| ((t &&& 0x3F) <<< 18)) >>> 18) &&& 0x3F = t := by
  apply Nat.eq_of_testBit_eq
  intro i
  rw [Nat.testBit_land, Nat.testBit_shiftRight, Nat.testBit_lor, Nat.testBit_land,
    Nat.testBit_shiftLeft, Nat.testBit_land]
  rcases Nat.lt_or_ge i 6 with hi | hi
  · rw [mask_testBit_false i hi, sixtyThree_testBit_true i hi,
      Nat.add_sub_cancel_left, decide_eq_true (Nat.le_add_right 18 i),
      sixtyThree_testBit_true i hi]
    simp
  · have h2 : (2 : Nat) ^ 6 ≤ 2 ^ i := Nat.pow_le_pow_right (by omega) hi
    rw [Nat.testBit_eq_false_of_lt (show (63 : Nat) < 2 ^ i by omega),
      Nat.testBit_eq_false_of_lt (show t < 2 ^ i by omega)]
    simp

/-- Claim C5, amended: for every channel register value and requested
phase (integer + micro radians), the stored 6-bit phase code equals
`(phaseMicroRadians * divider) / 3141592` — a **truncating** division
by π·10⁶, not a rounded division by 2π — clamped to [0, 63], where the
divider is the one currently programmed in the register
(`AD9523_CLK_DIST_DIV_REV`).  The driver's own phase readback divides
by the same constant 3141592, confirming π (not 2π) as the intended
unit. -/
theorem claim5_theorem (reg : Nat) (val val2 : Int) :
    AD9523_CLK_DIST_DIV_PHASE_REV (ad9523_write_raw_phase reg val val2) =
      (min (max (Int.tdiv ((val * 1000000 + Int.tmod val2 1000000) *
          ((AD9523_CLK_DIST_DIV_REV reg : Nat) : Int)) 3141592) 0) 63).toNat := by
  unfold ad9523_write_raw_phase AD9523_CLK_DIST_DIV_PHASE_REV
  simp only
  exact phase_field_roundtrip reg _ (Int.toNat_le.mpr (min_le_right _ _))

/-- Claim C5, counterexample: writing a phase of 6.283185 rad (2π) with
divider 1 stores code 2, while the claim's formula
`round(phaseRadians * divider / (2π))` gives 1: the stored code is
`⌊phase·divider/π⌋`, not `round(phase·divider/(2π))`. -/
theorem claim5_counterexample :
    AD9523_CLK_DIST_DIV_PHASE_REV (ad9523_write_raw_phase 0 6 283185) = 2 ∧
      specPhaseCode 6 283185 (AD9523_CLK_DIST_DIV_REV 0) = 1 ∧ (2 : Nat) ≠ 1 :=
  ⟨by decide, by decide, by decide⟩

/-! ### Claims about the register-transaction protocols -/

/-- On a transport whose transfer-status reads always come back
non-negative with the in-progress bit set, the poll loop entered with
counter `tmp` performs exactly `tmp + 1` status reads. -/
theorem eepromPoll_log_stuck (S : Type) (t : Transport S)
    (hr : ∀ s', 0 ≤ (t.read s' AD9523_EEPROM_DATA_XFER_STATUS).1)
    (hip : ∀ s', (t.read s' AD9523_EEPROM_DATA_XFER_STATUS).1.toNat &&&
      AD9523_EEPROM_DATA_XFER_IN_PROGRESS ≠ 0) :
    ∀ tmp s l, (eepromPoll (withLog t) tmp (s, l)).2.2 =
      l ++ List.replicate (tmp + 1) (BusOp.rd AD9523_EEPROM_DATA_XFER_STATUS) := by
  intro tmp
  induction tmp with
  | zero =>
    intro s l
    rw [eepromPoll]
    simp only [withLog]
    rw [if_neg (not_lt.mpr (hr s))]
    simp [List.replicate_succ]
  | succ tm ih =>
    intro s l
    rw [eepromPoll]
    simp only [withLog] at ih ⊢
    rw [if_neg (not_lt.mpr (hr s)), if_pos (hip s), ih]
    simp [List.replicate_succ]

/-- The poll loop never invents an error: when every status read is
non-negative, its result is non-negative. -/
theorem eepromPoll_nonneg (S : Type) (t : Transport S)
    (hr : ∀ s', 0 ≤ (t.read s' AD9523_EEPROM_DATA_XFER_STATUS).1) :
    ∀ tmp s, 0 ≤ (eepromPoll t tmp s).1 := by
  intro tmp
  induction tmp with
  | zero =>
    intro s
    rw [eepromPoll]
    rw [if_neg (not_lt.mpr (hr s))]
    exact hr s
  | succ tm ih =>
    intro s
    rw [eepromPoll]
    rw [if_neg (not_lt.mpr (hr s))]
    split
    · exact ih _
    · exact hr s

/-- Claim C6, amended: against a transport whose transfer-in-progress
flag stays set for all polls (and whose writes succeed), the
non-volatile storage commit terminates after exactly 5 polls (the
initial check plus 4 retries) — but it does **not** return a distinct
StorageTimeout error: the source checks the poll result only for
transport errors, so the stuck commit falls through to the verify tail,
which re-enables write protection and returns `-EIO` if the
error-readback bit is set, else the readback value itself (0 being
success). -/
theorem claim6_theorem (S : Type) (t : Transport S) (s : S)
    (hr : ∀ s', 0 ≤ (t.read s' AD9523_EEPROM_DATA_XFER_STATUS).1)
    (hip : ∀ s', (t.read s' AD9523_EEPROM_DATA_XFER_STATUS).1.toNat &&&
      AD9523_EEPROM_DATA_XFER_IN_PROGRESS ≠ 0)
    (hw : ∀ s' a v, (t.write s' a v).1 = 0) :
    (eepromPoll (withLog t) 4 (s, [])).2.2 =
      List.replicate 5 (BusOp.rd AD9523_EEPROM_DATA_XFER_STATUS) ∧
    ad9523_store_eeprom t s =
      eepromVerify t (eepromPoll t 4
        ((t.write ((t.write s AD9523_EEPROM_CTRL1
            AD9523_EEPROM_CTRL1_EEPROM_WRITE_PROT_DIS).2)
          AD9523_EEPROM_CTRL2 AD9523_EEPROM_CTRL2_REG2EEPROM).2)).2 := by
  constructor
  · rw [eepromPoll_log_stuck S t hr hip 4 s []]
    rfl
  · unfold ad9523_store_eeprom
    simp only
    rw [if_neg (by rw [hw]; omega), if_neg (by rw [hw]; omega),
      if_neg (not_lt.mpr (eepromPoll_nonneg S t hr 4 _))]

/-- Claim C6, counterexample: on the stuck transport (in-progress bit
always set, error-readback clear) the storage commit returns 0 —
success — rather than any timeout error code. -/
theorem claim6_counterexample :
    (ad9523_store_eeprom stuckTransport ()).1 = 0 :=
  by decide

/-- Claim C6, witness for the amended theorem, on the stuck transport. -/
theorem claim6_witness :
    (eepromPoll (withLog stuckTransport) 4 ((), [])).2.2 =
      List.replicate 5 (BusOp.rd AD9523_EEPROM_DATA_XFER_STATUS) ∧
    ad9523_store_eeprom stuckTransport () =
      eepromVerify stuckTransport (eepromPoll stuckTransport 4
        ((stuckTransport.write ((stuckTransport.write () AD9523_EEPROM_CTRL1
            AD9523_EEPROM_CTRL1_EEPROM_WRITE_PROT_DIS).2)
          AD9523_EEPROM_CTRL2 AD9523_EEPROM_CTRL2_REG2EEPROM).2)).2 :=
  claim6_theorem Unit stuckTransport () (fun s' => (by decide : (0 : Int) ≤ 1))
    (fun s' => (by decide : (1 : Int).toNat &&& 1 ≠ 0)) (fun s' a v => rfl)

/-- Claim C7, amended: for every transport, `ad9523_sync` aborts with
the first error of the status read, of the set-bit status write, or of
the clear-bit status write, executing no later bus operation; but the
result of the **first commit** (the IO_UPDATE write between setting and
clearing the sync bit) is **discarded** — the sequence continues
regardless of it, and only the final commit's result is returned.  The
four conjuncts characterise the four abort/continue points, with the
bus-operation log made explicit. -/
theorem claim7_theorem (S : Type) (t : Transport S) (s : S) :
    ((t.read s AD9523_STATUS_SIGNALS).1 < 0 →
      ad9523_sync (withLog t) (s, []) =
        ((t.read s AD9523_STATUS_SIGNALS).1,
          ((t.read s AD9523_STATUS_SIGNALS).2, [BusOp.rd AD9523_STATUS_SIGNALS]))) ∧
    (0 ≤ (t.read s AD9523_STATUS_SIGNALS).1 →
      (t.write (t.read s AD9523_STATUS_SIGNALS).2 AD9523_STATUS_SIGNALS
        ((t.read s AD9523_STATUS_SIGNALS).1.toNat |||
          AD9523_STATUS_SIGNALS_SYNC_MAN_CTRL)).1 < 0 →
      ad9523_sync (withLog t) (s, []) =
        ((t.write (t.read s AD9523_STATUS_SIGNALS).2 AD9523_STATUS_SIGNALS
            ((t.read s AD9523_STATUS_SIGNALS).1.toNat |||
              AD9523_STATUS_SIGNALS_SYNC_MAN_CTRL)).1,
          ((t.write (t.read s AD9523_STATUS_SIGNALS).2 AD9523_STATUS_SIGNALS
              ((t.read s AD9523_STATUS_SIGNALS).1.toNat |||
                AD9523_STATUS_SIGNALS_SYNC_MAN_CTRL)).2,
            [BusOp.rd AD9523_STATUS_SIGNALS,
             BusOp.wr AD9523_STATUS_SIGNALS
               ((t.read s AD9523_STATUS_SIGNALS).1.toNat |||
                 AD9523_STATUS_SIGNALS_SYNC_MAN_CTRL)]))) ∧
    (∀ rv rs w1v w1s uv us w2v w2s,
      t.read s AD9523_STATUS_SIGNALS = (rv, rs) → 0 ≤ rv →
      t.write rs AD9523_STATUS_SIGNALS
        (rv.toNat ||| AD9523_STATUS_SIGNALS_SYNC_MAN_CTRL) = (w1v, w1s) →
      0 ≤ w1v →
      t.write w1s AD9523_IO_UPDATE AD9523_IO_UPDATE_EN = (uv, us) →
      t.write us AD9523_STATUS_SIGNALS
        ((rv.toNat ||| AD9523_STATUS_SIGNALS_SYNC_MAN_CTRL) &&&
          (0xFFFFFFFF ^^^ AD9523_STATUS_SIGNALS_SYNC_MAN_CTRL)) = (w2v, w2s) →
      w2v < 0 →
      ad9523_sync (withLog t) (s, []) =
        (w2v, (w2s,
          [BusOp.rd AD9523_STATUS_SIGNALS,
           BusOp.wr AD9523_STATUS_SIGNALS
             (rv.toNat ||| AD9523_STATUS_SIGNALS_SYNC_MAN_CTRL),
           BusOp.wr AD9523_IO_UPDATE AD9523_IO_UPDATE_EN,
           BusOp.wr AD9523_STATUS_SIGNALS
             ((rv.toNat ||| AD9523_STATUS_SIGNALS_SYNC_MAN_CTRL) &&&
               (0xFFFFFFFF ^^^ AD9523_STATUS_SIGNALS_SYNC_MAN_CTRL))]))) ∧
    (∀ rv rs w1v w1s uv us w2v w2s,
      t.read s AD9523_STATUS_SIGNALS = (rv, rs) → 0 ≤ rv →
      t.write rs AD9523_STATUS_SIGNALS
        (rv.toNat ||| AD9523_STATUS_SIGNALS_SYNC_MAN_CTRL) = (w1v, w1s) →
      0 ≤ w1v →
      t.write w1s AD9523_IO_UPDATE AD9523_IO_UPDATE_EN = (uv, us) →
      t.write us AD9523_STATUS_SIGNALS
        ((rv.toNat ||| AD9523_STATUS_SIGNALS_SYNC_MAN_CTRL) &&&
          (0xFFFFFFFF ^^^ AD9523_STATUS_SIGNALS_SYNC_MAN_CTRL)) = (w2v, w2s) →
      0 ≤ w2v →
      ad9523_sync (withLog t) (s, []) =
        ((t.write w2s AD9523_IO_UPDATE AD9523_IO_UPDATE_EN).1,
          ((t.write w2s AD9523_IO_UPDATE AD9523_IO_UPDATE_EN).2,
            [BusOp.rd AD9523_STATUS_SIGNALS,
             BusOp.wr AD9523_STATUS_SIGNALS
               (rv.toNat ||| AD9523_STATUS_SIGNALS_SYNC_MAN_CTRL),
             BusOp.wr AD9523_IO_UPDATE AD9523_IO_UPDATE_EN,
             BusOp.wr AD9523_STATUS_SIGNALS
               ((rv.toNat ||| AD9523_STATUS_SIGNALS_SYNC_MAN_CTRL) &&&
                 (0xFFFFFFFF ^^^ AD9523_STATUS_SIGNALS_SYNC_MAN_CTRL)),
             BusOp.wr AD9523_IO_UPDATE AD9523_IO_UPDATE_EN]))) := by
  refine ⟨?_, ?_, ?_, ?_⟩
  · intro h
    unfold ad9523_sync
    simp only [withLog]
    rw [if_pos h]
    simp
  · intro h0 h1
    unfold ad9523_sync
    simp only [withLog]
    rw [if_neg (not_lt.mpr h0), if_pos h1]
    simp
  · intro rv rs w1v w1s uv us w2v w2s hrd h0 hw1 h1 hu hw2 h2
    unfold ad9523_sync ad9523_io_update
    simp only [withLog]
    rw [hrd]
    simp only
    rw [if_neg (not_lt.mpr h0), hw1]
    simp only
    rw [if_neg (not_lt.mpr h1), hu]
    simp only
    rw [hw2]
    simp only
    rw [if_pos h2]
    simp
  · intro rv rs w1v w1s uv us w2v w2s hrd h0 hw1 h1 hu hw2 h2
    unfold ad9523_sync ad9523_io_update
    simp only [withLog]
    rw [hrd]
    simp only
    rw [if_neg (not_lt.mpr h0), hw1]
    simp only
    rw [if_neg (not_lt.mpr h1), hu]
    simp only
    rw [hw2]
    simp only
    rw [if_neg (not_lt.mpr h2)]
    simp

/-- Claim C7, counterexample: on a transport where the first IO_UPDATE
commit fails with `-5` and everything else succeeds, `ad9523_sync`
returns 0 (success) even though a step of the sequence failed: the
first commit's error is discarded (the source ignores
`ad9523_io_update`'s return value at that step). -/
theorem claim7_counterexample :
    (ad9523_sync flakyCommitTransport 0).1 = 0 ∧
      (flakyCommitTransport.write 0 AD9523_IO_UPDATE AD9523_IO_UPDATE_EN).1 = -5 :=
  ⟨by decide, by decide⟩

/-- Claim C7, witness: a failing status read aborts the sequence with
that error before any write. -/
theorem claim7_witness :
    ad9523_sync (withLog failReadTransport) ((), []) =
      (-5, ((), [BusOp.rd AD9523_STATUS_SIGNALS])) :=
  (claim7_theorem Unit failReadTransport ()).1 (by decide)

/-! ### Claim about the session bring-up integrity check -/

/-- Claim C10, confirmed: the read/write integrity check of
`ad9523_setup` restores the scratch register.  First conjunct, for any
transport: on the success path (initial read non-negative, sentinel
write accepted, readback equal to `0xAD95`), the check issues exactly
the bus sequence read, write-sentinel, read, write-back, and the value
of the final write is exactly the initially read value.  Second
conjunct, on an ideal register-file device: the check succeeds and the
EEPROM customer version ID register ends the check holding exactly the
value it held before. -/
theorem claim10_theorem :
    (∀ (S : Type) (t : Transport S) (s : S),
      0 ≤ (t.read s AD9523_EEPROM_CUSTOMER_VERSION_ID).1 →
      0 ≤ (t.write (t.read s AD9523_EEPROM_CUSTOMER_VERSION_ID).2
        AD9523_EEPROM_CUSTOMER_VERSION_ID 0xAD95).1 →
      (t.read (t.write (t.read s AD9523_EEPROM_CUSTOMER_VERSION_ID).2
          AD9523_EEPROM_CUSTOMER_VERSION_ID 0xAD95).2
        AD9523_EEPROM_CUSTOMER_VERSION_ID).1 = 0xAD95 →
      (ad9523_setup_verify (withLog t) (s, [])).2.2 =
        [BusOp.rd AD9523_EEPROM_CUSTOMER_VERSION_ID,
         BusOp.wr AD9523_EEPROM_CUSTOMER_VERSION_ID 0xAD95,
         BusOp.rd AD9523_EEPROM_CUSTOMER_VERSION_ID,
         BusOp.wr AD9523_EEPROM_CUSTOMER_VERSION_ID
           (t.read s AD9523_EEPROM_CUSTOMER_VERSION_ID).1.toNat]) ∧
    (∀ st : Nat → Nat,
      (ad9523_setup_verify regStore st).1 = 0 ∧
      (ad9523_setup_verify regStore st).2 AD9523_EEPROM_CUSTOMER_VERSION_ID =
        st AD9523_EEPROM_CUSTOMER_VERSION_ID) := by
  constructor
  · intro S t s h0 h1 h2
    unfold ad9523_setup_verify
    simp only [withLog]
    rw [if_neg (not_lt.mpr h0), if_neg (not_lt.mpr h1),
      if_neg (not_lt.mpr (h2 ▸ (by omega : (0 : Int) ≤ 0xAD95))),
      if_neg (by rw [h2]; omega)]
    simp
  · intro st
    unfold ad9523_setup_verify regStore
    simp
    rw [if_neg (not_lt.mpr (Int.natCast_nonneg _))]
    simp

/-- Claim C10, witness: a device whose registers all hold 7 passes the
check with the logged sequence ending in a write of 7. -/
theorem claim10_witness :
    (ad9523_setup_verify (withLog regStore) ((fun _ => 7), [])).2.2 =
      [BusOp.rd AD9523_EEPROM_CUSTOMER_VERSION_ID,
       BusOp.wr AD9523_EEPROM_CUSTOMER_VERSION_ID 0xAD95,
       BusOp.rd AD9523_EEPROM_CUSTOMER_VERSION_ID,
       BusOp.wr AD9523_EEPROM_CUSTOMER_VERSION_ID 7] :=
  claim10_theorem.1 (Nat → Nat) regStore (fun _ => 7)
    (by decide) (by decide) (by decide)
